import Mathlib

/-!
Verification of the automation orchestration engine of the MAHA repository:
the serial-number allocator (`app/services/id_generator.py`), the sequential
scheduler (`app/services/automation_new.py`), the database change monitor
(`app/services/db_change_monitor.py`) and the startup/resume coordinator
(`app/services/startup.py`), shallowly embedded as pure Lean functions over
an explicit store state.
-/

namespace Maha

/-- The three-valued status enum from `app/models/enums.py` (`PrefixStatus`). -/
inductive PrefixStatus where
  | not_started
  | pending
  | completed
deriving DecidableEq, Repr

/-- One row of the `prefix_metadata` table, as validated by the pydantic
model `PrefixConfig` in `app/models/schemas.py`.  The source field `prefix`
is rendered here as `pfx` (Lean reserves the word). -/
structure PrefixConfig where
  pfx : String
  digits : Nat
  last_number : Nat
  has_space : Bool
  status : PrefixStatus
deriving DecidableEq, Repr

/-- The `prefix_metadata` table: one row per prefix, in storage order. -/
abbrev Store := List PrefixConfig

/-- Model of `select("*").eq("prefix", p)` followed by taking `data[0]`: the first
row whose key matches. -/
def findByPfx (s : Store) (p : String) : Option PrefixConfig :=
  s.find? (fun c => c.pfx == p)

/-- Model of `update({...}).eq("prefix", p)`: apply the field update to every row
whose key matches, leaving the others untouched. -/
def updateWhere (s : Store) (p : String) (f : PrefixConfig → PrefixConfig) : Store :=
  s.map (fun r => if r.pfx == p then f r else r)

/-- Status of the first row matching `p`, an observer used by theorems. -/
def statusOf (s : Store) (p : String) : Option PrefixStatus :=
  (findByPfx s p).map (fun c => c.status)

/-- Field `last_number` of the first row matching `p`, an observer used by theorems. -/
def lastOf (s : Store) (p : String) : Option Nat :=
  (findByPfx s p).map (fun c => c.last_number)

/-- Python's `a or b` for an optional integer `a`: `None` and `0` are both
falsy, so they fall through to `b` (this is exactly `digits or current["digits"]`
in `_increment_via_update`). -/
def pyOrNat (a : Option Nat) (b : Nat) : Nat :=
  match a with
  | some d => if d = 0 then b else d
  | none => b

/-- Model of `IDGeneratorService._increment_via_update` (`app/services/id_generator.py`,
lines 89-124): the client-side fallback path of the allocator.  If a row for
`p` exists, write back `last_number + 1`, keep `digits`/`has_space` unless
explicitly supplied, and set `status` to `"pending"`; otherwise insert a fresh
row with `last_number = 1`.  Returns the updated store and the row the call
returns (`updated.data[0]` resp. `created.data[0]`). -/
def incrementViaUpdate (s : Store) (p : String) (digits : Option Nat)
    (has_space : Option Bool) : Store × PrefixConfig :=
  match findByPfx s p with
  | some current =>
      let new_number := current.last_number + 1
      let upd : PrefixConfig → PrefixConfig := fun c =>
        { c with last_number := new_number,
                 digits := pyOrNat digits current.digits,
                 has_space := has_space.getD current.has_space,
                 status := PrefixStatus.pending }
      (updateWhere s p upd, upd current)
  | none =>
      let new_config : PrefixConfig :=
        { pfx := p, digits := pyOrNat digits 5, last_number := 1,
          has_space := has_space.getD true, status := PrefixStatus.pending }
      (s ++ [new_config], new_config)

/-- Python's `str.zfill`: pad with leading zeros up to width `w`. -/
def zfill (str : String) (w : Nat) : String :=
  if str.length ≥ w then str
  else String.mk (List.replicate (w - str.length) '0') ++ str

/-- Model of `IDGeneratorService._format_id`: prefix, optional separator, zero-padded
serial number. -/
def formatId (c : PrefixConfig) : String :=
  c.pfx ++ (if c.has_space then " " else "") ++ zfill (toString c.last_number) c.digits

/-- Iterating the fallback allocator `n` times for the same prefix
(the sequence of allocate calls of the testable property). -/
def allocateSeq (s : Store) (p : String) : Nat → Store
  | 0 => s
  | n + 1 => allocateSeq (incrementViaUpdate s p none none).1 p n

/-- The scheduler's in-memory counters (`SequentialAutomationService.stats`
dictionary in `app/services/automation_new.py`); `start_time` is modelled as
seconds on an integer clock. -/
structure EngineStats where
  total_generated : Nat
  mobile_numbers_found : Nat
  errors : Nat
  start_time : Option Int
deriving DecidableEq, Repr

/-- An entry of the `serial_log` table as written by
`IDGeneratorService.log_serial_event`. -/
structure SerialLogEntry where
  pfx : String
  generated_id : String
  mobile : Option String
  status : String
  extra : List (String × String)
deriving DecidableEq, Repr

/-- The append-only `serial_log` table. -/
abbrev SerialLog := List SerialLogEntry

/-- Python's `str.strip()`: drop leading and trailing whitespace
(`prefix.strip()` in the source). -/
def pyStrip (s : String) : String :=
  String.mk (((s.data.dropWhile Char.isWhitespace).reverse.dropWhile
    Char.isWhitespace).reverse)

/-- Python's `str.upper()` on the characters of the string. -/
def pyUpper (s : String) : String :=
  String.mk (s.data.map Char.toUpper)

/-- The prefix normalization `prefix.strip().upper()` applied on every
entry path of the generator service. -/
def normalizePfx (s : String) : String := pyUpper (pyStrip s)

/-- Model of `IDGeneratorService.log_serial_event` (`app/services/id_generator.py`,
lines 159-178): insert one row into `serial_log` and return its id (modelled
as the position of the inserted row). -/
def logSerialEvent (log : SerialLog) (p generated_id : String)
    (mobile : Option String) (status : String)
    (metadata : Option (List (String × String))) : SerialLog × Nat :=
  (log ++ [{ pfx := normalizePfx p, generated_id := generated_id,
             mobile := mobile, status := status,
             extra := metadata.getD [] }], log.length)

/-- Outcome oracle for the external effects of one per-item pass: whether
`generate_next_id` completes without raising, whether the scraper call
raises, and on a non-raising scrape its `success` flag and
`mobile_number` field.  `sheetsRaises` records whether the Google Sheets
append raises (that exception is caught and logged inside the pass and
alters no modelled state). -/
structure ItemEnv where
  genOk : Bool
  scrapeRaises : Bool
  scrapeSuccess : Bool
  scrapeMobile : Option String
  sheetsRaises : Bool
deriving DecidableEq, Repr

/-- A per-item pass returns `True` exactly when neither the generation step
nor the scrape step raised. -/
def itemOk (env : ItemEnv) : Bool :=
  env.genOk && !env.scrapeRaises

/-- The mutable state a per-item pass touches: the `prefix_metadata` table,
the in-memory counters and the `serial_log` table. -/
structure ItemState where
  store : Store
  stats : EngineStats
  slog : SerialLog
deriving DecidableEq, Repr

/-- Model of `SequentialAutomationService._generate_and_process_single_id`
(`app/services/automation_new.py`, lines 243-290).  One allocation attempt:
generate the next id (the client-side `_increment_via_update` path of the
allocator), scrape the mobile number, log positive findings to Google
Sheets (external, exceptions swallowed), re-write `last_number` with the
value the allocator already stored, and return whether the pass succeeded.
Any exception escaping the body increments `stats.errors` and yields
`false`. -/
def generateAndProcessSingleId (env : ItemEnv) (st : ItemState) (p : String) :
    ItemState × Bool :=
  if env.genOk then
    let res := incrementViaUpdate st.store (normalizePfx p) none none
    let stats1 := { st.stats with total_generated := st.stats.total_generated + 1 }
    if env.scrapeRaises then
      ({ st with store := res.1,
                 stats := { stats1 with errors := stats1.errors + 1 } }, false)
    else
      let mobile := if env.scrapeSuccess then env.scrapeMobile else none
      let stats2 :=
        match mobile with
        | some _ => { stats1 with
            mobile_numbers_found := stats1.mobile_numbers_found + 1 }
        | none => stats1
      let store2 := updateWhere res.1 p (fun r => { r with last_number := res.2.last_number })
      ({ st with store := store2, stats := stats2 }, true)
  else
    ({ st with stats := { st.stats with errors := st.stats.errors + 1 } }, false)

/-- Ways the inner loop of `_process_prefix_until_completion` can end. -/
inductive LoopExit where
  | stopped
  | recordMissing
  | maxReached
  | tooManyErrors
deriving DecidableEq, Repr

/-- Model of the `while self.running and current_number < max_number` loop of
`SequentialAutomationService._process_prefix_until_completion`
(`app/services/automation_new.py`, lines 169-222).  The `running` flag is
modelled by the oracle trace: an exhausted trace is an externally cleared
flag.  Each iteration re-reads the row, breaks once `last_number` has
reached `max_number`, runs one per-item pass, resets the consecutive-error
counter on success and increments it on failure, and breaks when the
counter reaches `10`.  Also returns how the loop exited and how many
per-item passes were executed. -/
def processLoop (p : String) (max_number : Nat) :
    List ItemEnv → Nat → ItemState → ItemState × LoopExit × Nat
  | [], _, st => (st, LoopExit.stopped, 0)
  | env :: rest, consecutive, st =>
    match findByPfx st.store (normalizePfx p) with
    | none => (st, LoopExit.recordMissing, 0)
    | some cfg =>
      if cfg.last_number ≥ max_number then (st, LoopExit.maxReached, 0)
      else
        let step := generateAndProcessSingleId env st p
        if step.2 then
          let rec_ := processLoop p max_number rest 0 step.1
          (rec_.1, rec_.2.1, rec_.2.2 + 1)
        else
          if consecutive + 1 ≥ 10 then (step.1, LoopExit.tooManyErrors, 1)
          else
            let rec_ := processLoop p max_number rest (consecutive + 1) step.1
            (rec_.1, rec_.2.1, rec_.2.2 + 1)

/-- Model of `SequentialAutomationService._mark_prefix_status`: write one status
value to every row whose key matches. -/
def markPrefixStatus (s : Store) (p : String) (v : PrefixStatus) : Store :=
  updateWhere s p (fun r => { r with status := v })

/-- Model of `SequentialAutomationService._process_prefix_until_completion`
(`app/services/automation_new.py`, lines 145-241): read the row to obtain
`digits` and `max_number = 10 ^ digits - 1`, run the processing loop, then
re-read the row and mark the status `"completed"` exactly when the final
`last_number` has reached `max_number`; otherwise leave the row as the loop
left it. -/
def processPrefixUntilCompletion (p : String) (envs : List ItemEnv)
    (st : ItemState) : ItemState × LoopExit × Nat :=
  match findByPfx st.store (normalizePfx p) with
  | none => (st, LoopExit.recordMissing, 0)
  | some cfg0 =>
    let max_number := 10 ^ cfg0.digits - 1
    let r := processLoop p max_number envs 0 st
    match findByPfx r.1.store (normalizePfx p) with
    | none => r
    | some finalCfg =>
      if finalCfg.last_number ≥ max_number then
        ({ r.1 with store := markPrefixStatus r.1.store p PrefixStatus.completed },
         r.2.1, r.2.2)
      else r

/-- Model of `SequentialAutomationService._get_next_prefix_to_process`
(`app/services/automation_new.py`, lines 104-143): return the first
`"pending"` row's key if one exists; otherwise, when the count of pending
rows is zero, claim the first `"not_started"` row by flipping its status to
`"pending"` and return its key; otherwise return nothing. -/
def getNextPrefixToProcess (s : Store) : Store × Option String :=
  match s.find? (fun c => c.status == PrefixStatus.pending) with
  | some c => (s, some c.pfx)
  | none =>
    let all_pending := s.filter (fun c => c.status == PrefixStatus.pending)
    if all_pending.length = 0 then
      match s.find? (fun c => c.status == PrefixStatus.not_started) with
      | some c => (markPrefixStatus s c.pfx PrefixStatus.pending, some c.pfx)
      | none => (s, none)
    else (s, none)

/-- The engine state `stop` touches: the shared running flag, the currently
claimed prefix and the store. -/
structure Engine where
  running : Bool
  current_pfx : Option String
  store : Store
deriving DecidableEq, Repr

/-- Model of `SequentialAutomationService.stop` (`app/services/automation_new.py`,
lines 320-334): clear the running flag, and if a prefix is currently
claimed write `status = "pending"` to its row (and to no other field of any
row). -/
def stop (e : Engine) : Engine :=
  match e.current_pfx with
  | some p => { e with running := false,
                       store := markPrefixStatus e.store p PrefixStatus.pending }
  | none => { e with running := false }

/-- The snapshot returned by `SequentialAutomationService.get_stats`:
the copied counters plus the derived fields, which are present only when
`start_time` has been set. -/
structure StatsSnapshot where
  total_generated : Nat
  mobile_numbers_found : Nat
  errors : Nat
  start_time : Option Int
  runtime_seconds : Option Int
  success_rate : Option ℚ
deriving DecidableEq, Repr

/-- Model of `SequentialAutomationService.get_stats` (`app/services/automation_new.py`,
lines 336-347): copy the counters; when `start_time` is set also report
`runtime_seconds = now - start_time` and
`success_rate = (total_generated - errors) / max(total_generated, 1) * 100`. -/
def getStats (s : EngineStats) (now : Int) : StatsSnapshot :=
  match s.start_time with
  | some t =>
    { total_generated := s.total_generated,
      mobile_numbers_found := s.mobile_numbers_found,
      errors := s.errors,
      start_time := some t,
      runtime_seconds := some (now - t),
      success_rate := some
        (((s.total_generated : ℚ) - (s.errors : ℚ)) / (max (s.total_generated : ℚ) 1) * 100) }
  | none =>
    { total_generated := s.total_generated,
      mobile_numbers_found := s.mobile_numbers_found,
      errors := s.errors,
      start_time := none,
      runtime_seconds := none,
      success_rate := none }

/-- Modelled from the spec: the success-rate formula the specification
states for `get_stats`, namely
`success_rate = found / max(generated, 1) * 100`
(identifiers with a found attribute over identifiers generated).  Stated
separately so it can be compared with the formula the code computes. -/
def specSuccessRate (s : EngineStats) : ℚ :=
  (s.mobile_numbers_found : ℚ) / (max (s.total_generated : ℚ) 1) * 100

/-- The change monitor's last-seen state (`DatabaseChangeMonitor` fields
`last_prefix_count`, `last_pending_count`, `last_check_time` in
`app/services/db_change_monitor.py`); clock values are integer seconds. -/
structure MonitorState where
  last_prefix_count : Nat
  last_pending_count : Nat
  last_check_time : Option Int
deriving DecidableEq, Repr

/-- One observation built by `DatabaseChangeMonitor._get_current_state`:
total row count, pending row count, the newest `updated_at` timestamp (if
any row carries one) and the observation's own clock reading. -/
structure Observation where
  total_count : Nat
  pending_count : Nat
  last_updated : Option Int
  check_time : Int
deriving DecidableEq, Repr

/-- Condition 3 of `DatabaseChangeMonitor._detect_changes`: some row was
updated within twice the check interval of the monitor's recorded check
time. -/
def recentUpdate (check_interval : Nat) (m : MonitorState) (obs : Observation) : Bool :=
  match obs.last_updated, m.last_check_time with
  | some u, some lc => |lc - u| < (check_interval : Int) * 2
  | _, _ => false

/-- Model of `DatabaseChangeMonitor._detect_changes` (`app/services/db_change_monitor.py`,
lines 110-145).  When the last seen total count is zero the observation only
establishes a baseline and no change is reported.  Otherwise a change is
reported when the total count grew, or the pending count differs from the
last seen pending count (in either direction), or a recent update timestamp
is present; the last seen counts are then replaced by the observed ones. -/
def detectChanges (check_interval : Nat) (m : MonitorState) (obs : Observation) :
    Bool × MonitorState :=
  let m' := { m with last_prefix_count := obs.total_count,
                     last_pending_count := obs.pending_count }
  if m.last_prefix_count = 0 then
    (false, m')
  else
    ((decide (obs.total_count > m.last_prefix_count)
      || decide (obs.pending_count ≠ m.last_pending_count)
      || recentUpdate check_interval m obs), m')

/-- Raw status strings as stored in `prefix_metadata` rows before pydantic
validation: the three live values plus the three legacy values the startup
service normalizes. -/
inductive RawStatus where
  | not_started
  | pending
  | completed
  | running
  | error
  | paused
deriving DecidableEq, Repr

/-- The legacy status test `old_status in ["running", "error", "paused"]`. -/
def isLegacy : RawStatus → Bool
  | RawStatus.running => true
  | RawStatus.error => true
  | RawStatus.paused => true
  | _ => false

/-- A raw `prefix_metadata` row as read by `StartupService`. -/
structure RawRecord where
  pfx : String
  digits : Nat
  last_number : Nat
  has_space : Bool
  status : RawStatus
deriving DecidableEq, Repr

/-- The raw table as `StartupService._get_all_prefixes` reads it. -/
abbrev RawStore := List RawRecord

/-- The per-row normalization step of
`StartupService.check_and_resume_automation` (`app/services/startup.py`,
lines 36-49): a legacy status is rewritten to `"pending"` both in the
database and in the in-memory row; other rows are untouched. -/
def normalizeRecord (r : RawRecord) : RawRecord :=
  if isLegacy r.status then { r with status := RawStatus.pending } else r

/-- The store after `check_and_resume_automation` has walked every row. -/
def reconcileStore (s : RawStore) : RawStore :=
  s.map normalizeRecord

/-- The summary dictionary `check_and_resume_automation` returns. -/
structure ResumeSummary where
  pending_to_process : List String
  not_started_to_process : List String
  completed : List String
  total_prefixes_to_automate : Nat
deriving DecidableEq, Repr

/-- The categorization and counting part of
`StartupService.check_and_resume_automation` (`app/services/startup.py`,
lines 29-97): normalize every row, partition the keys by status in row
order, and count the pending plus not-started keys. -/
def reconcileSummary (s : RawStore) : ResumeSummary :=
  let norm := reconcileStore s
  let pend := (norm.filter (fun r => r.status == RawStatus.pending)).map (fun r => r.pfx)
  let nst := (norm.filter (fun r => r.status == RawStatus.not_started)).map (fun r => r.pfx)
  let comp := (norm.filter (fun r => r.status == RawStatus.completed)).map (fun r => r.pfx)
  { pending_to_process := pend,
    not_started_to_process := nst,
    completed := comp,
    total_prefixes_to_automate := pend.length + nst.length }

/-- Model of `StartupService.check_and_resume_automation` (`app/services/startup.py`,
lines 23-124) as a state transformer: the normalized store, the summary,
and whether a new scheduler task is created — which happens exactly when
there is work to automate and the scheduler is not already running. -/
def checkAndResume (s : RawStore) (running : Bool) :
    RawStore × ResumeSummary × Bool :=
  let summary := reconcileSummary s
  (reconcileStore s, summary,
   decide (summary.total_prefixes_to_automate > 0) && !running)

/-- A sample engine state used to witness the stop behaviour: running, with
prefix `"AB"` active over a two-row store. -/
def sampleEngine : Engine :=
  Engine.mk true (some "AB")
    [PrefixConfig.mk "AB" 4 7 false PrefixStatus.pending,
     PrefixConfig.mk "C" 4 1 true PrefixStatus.completed]

/-- A sample raw store used to witness reconciliation: one legacy row, one
not-started row, one completed row. -/
def sampleRawStore : RawStore :=
  [RawRecord.mk "A" 4 2 false RawStatus.running,
   RawRecord.mk "B" 4 0 true RawStatus.not_started,
   RawRecord.mk "C" 4 9999 false RawStatus.completed]

/-! ### Helper lemmas about the store operations -/

theorem findByPfx_cons (r : PrefixConfig) (s : Store) (p : String) :
    findByPfx (r :: s) p = if r.pfx == p then some r else findByPfx s p := by
  simp only [findByPfx, List.find?_cons]
  cases h : (r.pfx == p) <;> simp [h]

theorem updateWhere_cons (r : PrefixConfig) (s : Store) (p : String)
    (f : PrefixConfig → PrefixConfig) :
    updateWhere (r :: s) p f = (if r.pfx == p then f r else r) :: updateWhere s p f := rfl

/-- Updating the rows keyed by `p` with a key-preserving field update turns
the first row found for `p` into its update. -/
theorem findByPfx_updateWhere_some (s : Store) (p : String)
    (f : PrefixConfig → PrefixConfig) (c : PrefixConfig)
    (hpfx : ∀ r, (f r).pfx = r.pfx) (h : findByPfx s p = some c) :
    findByPfx (updateWhere s p f) p = some (f c) := by
  induction s with
  | nil => simp [findByPfx] at h
  | cons r s ih =>
    rw [findByPfx_cons] at h
    rw [updateWhere_cons]
    by_cases hb : (r.pfx == p) = true
    · rw [if_pos hb] at h ⊢
      rw [findByPfx_cons]
      have : ((f r).pfx == p) = true := by
        rw [hpfx r]; exact hb
      rw [if_pos this]
      cases h; rfl
    · rw [if_neg hb] at h ⊢
      rw [findByPfx_cons, if_neg hb]
      exact ih h

/-- Rows not keyed by `p` are invisible to a lookup for a different key. -/
theorem findByPfx_updateWhere_ne (s : Store) (p q : String)
    (f : PrefixConfig → PrefixConfig)
    (hpfx : ∀ r, (f r).pfx = r.pfx) (hne : p ≠ q) :
    findByPfx (updateWhere s p f) q = findByPfx s q := by
  induction s with
  | nil => rfl
  | cons r s ih =>
    rw [updateWhere_cons, findByPfx_cons, findByPfx_cons]
    by_cases hb : (r.pfx == p) = true
    · have hrp : r.pfx = p := by exact eq_of_beq hb
      have h1 : ((f r).pfx == q) = false := by
        rw [hpfx r, hrp]
        exact beq_eq_false_iff_ne.mpr hne
      have h2 : (r.pfx == q) = false := by
        rw [hrp]; exact beq_eq_false_iff_ne.mpr hne
      rw [if_pos hb, h1, h2]
      simp only [Bool.false_eq_true, if_false]
      exact ih
    · rw [if_neg hb]
      by_cases hq : (r.pfx == q) = true
      · rw [if_pos hq, if_pos hq]
      · rw [if_neg hq, if_neg hq]
        exact ih

/-- Appending a row does not disturb a lookup that already succeeds. -/
theorem findByPfx_append_of_none (s : Store) (p : String) (c : PrefixConfig)
    (h : findByPfx s p = none) (hc : (c.pfx == p) = true) :
    findByPfx (s ++ [c]) p = some c := by
  induction s with
  | nil => simp [findByPfx, List.find?, hc]
  | cons r s ih =>
    rw [findByPfx_cons] at h
    by_cases hb : (r.pfx == p) = true
    · rw [if_pos hb] at h; cases h
    · rw [if_neg hb] at h
      show findByPfx (r :: (s ++ [c])) p = some c
      rw [findByPfx_cons, if_neg hb]
      exact ih h

/-- The status lookup after `markPrefixStatus` for an existing key. -/
theorem statusOf_markPrefixStatus (s : Store) (p : String) (v : PrefixStatus)
    (c : PrefixConfig) (h : findByPfx s p = some c) :
    statusOf (markPrefixStatus s p v) p = some v := by
  have := findByPfx_updateWhere_some s p (fun r => { r with status := v }) c
    (fun r => rfl) h
  simp [statusOf, markPrefixStatus, this]

/-! ### Helper lemmas about the allocator -/

/-- One fallback increment on an existing row: the returned row and the row
now stored. -/
theorem incrementViaUpdate_existing (s : Store) (p : String) (d : Option Nat)
    (hs : Option Bool) (c : PrefixConfig) (h : findByPfx s p = some c) :
    (incrementViaUpdate s p d hs).2 =
      { c with last_number := c.last_number + 1, digits := pyOrNat d c.digits,
               has_space := hs.getD c.has_space, status := PrefixStatus.pending }
    ∧ findByPfx (incrementViaUpdate s p d hs).1 p =
        some (incrementViaUpdate s p d hs).2 := by
  unfold incrementViaUpdate
  rw [h]
  refine ⟨rfl, ?_⟩
  exact findByPfx_updateWhere_some s p _ c (fun r => rfl) h

/-- One fallback increment with no row present: the inserted row. -/
theorem incrementViaUpdate_fresh (s : Store) (p : String) (d : Option Nat)
    (hs : Option Bool) (h : findByPfx s p = none) :
    (incrementViaUpdate s p d hs).2 =
      { pfx := p, digits := pyOrNat d 5, last_number := 1,
        has_space := hs.getD true, status := PrefixStatus.pending }
    ∧ findByPfx (incrementViaUpdate s p d hs).1 p =
        some (incrementViaUpdate s p d hs).2 := by
  unfold incrementViaUpdate
  rw [h]
  refine ⟨rfl, ?_⟩
  exact findByPfx_append_of_none s p _ h (by simp)

/-- Iterated fallback increments advance the stored serial number by
exactly one per call. -/
theorem allocateSeq_last (p : String) :
    ∀ (n : Nat) (s : Store) (c : PrefixConfig), findByPfx s p = some c →
      ∃ cF, findByPfx (allocateSeq s p n) p = some cF
        ∧ cF.last_number = c.last_number + n := by
  intro n
  induction n with
  | zero => intro s c h; exact ⟨c, h, rfl⟩
  | succ n ih =>
    intro s c h
    have step := incrementViaUpdate_existing s p none none c h
    obtain ⟨cF, hF, hlast⟩ :=
      ih (incrementViaUpdate s p none none).1 (incrementViaUpdate s p none none).2 step.2
    refine ⟨cF, hF, ?_⟩
    rw [hlast, step.1]
    simp [Nat.add_assoc, Nat.add_comm 1 n]

/-! ### Helper lemmas about one per-item pass -/

/-- A per-item pass succeeds exactly when neither generation nor scraping
raised. -/
theorem generateAndProcess_result (env : ItemEnv) (st : ItemState) (p : String) :
    (generateAndProcessSingleId env st p).2 = itemOk env := by
  unfold generateAndProcessSingleId itemOk
  cases hg : env.genOk <;> cases hr : env.scrapeRaises <;>
    simp [hg, hr]

/-- A per-item pass never touches the `serial_log` table. -/
theorem generateAndProcess_slog (env : ItemEnv) (st : ItemState) (p : String) :
    ((generateAndProcessSingleId env st p).1).slog = st.slog := by
  unfold generateAndProcessSingleId
  cases hg : env.genOk <;> cases hr : env.scrapeRaises <;>
    cases hm : (if env.scrapeSuccess then env.scrapeMobile else none) <;>
    simp [hg, hr, hm]

/-- Effect of a per-item pass on the row of a (normalized) prefix: a raised
generation leaves it alone; otherwise `last_number` advances by one and the
status is rewritten to `"pending"`. -/
theorem generateAndProcess_store (env : ItemEnv) (st : ItemState) (p : String)
    (cfg : PrefixConfig) (hnorm : normalizePfx p = p)
    (h : findByPfx st.store p = some cfg) :
    findByPfx ((generateAndProcessSingleId env st p).1).store p =
      some (if env.genOk then
              { cfg with last_number := cfg.last_number + 1,
                         status := PrefixStatus.pending }
            else cfg) := by
  have base := incrementViaUpdate_existing st.store p none none cfg h
  have hfind1 : findByPfx (incrementViaUpdate st.store (normalizePfx p) none none).1 p =
      some { cfg with last_number := cfg.last_number + 1,
                      status := PrefixStatus.pending } := by
    rw [hnorm, base.2, base.1]
    simp [pyOrNat]
  have hval : (incrementViaUpdate st.store (normalizePfx p) none none).2.last_number =
      cfg.last_number + 1 := by
    rw [hnorm, base.1]
  obtain ⟨g, sr, ss, sm, sh⟩ := env
  cases g
  · exact h
  · cases sr
    · have hupd := findByPfx_updateWhere_some
        (incrementViaUpdate st.store (normalizePfx p) none none).1 p
        (fun r => { r with
          last_number := (incrementViaUpdate st.store (normalizePfx p) none none).2.last_number })
        _ (fun r => rfl) hfind1
      show findByPfx (updateWhere (incrementViaUpdate st.store (normalizePfx p) none none).1 p
          (fun r => { r with
            last_number := (incrementViaUpdate st.store (normalizePfx p) none none).2.last_number })) p
        = some { cfg with last_number := cfg.last_number + 1, status := PrefixStatus.pending }
      rw [hupd]
      show some ({ cfg with
          last_number := (incrementViaUpdate st.store (normalizePfx p) none none).2.last_number,
          status := PrefixStatus.pending } : PrefixConfig)
        = some { cfg with last_number := cfg.last_number + 1, status := PrefixStatus.pending }
      rw [hval]
    · exact hfind1

/-! ### Helper lemmas about the processing loop -/

/-- One loop step on a failing item below the ceiling: the consecutive-error
counter advances, and at ten the loop exits. -/
theorem processLoop_cons_fail (p : String) (maxN : Nat) (e : ItemEnv)
    (rest : List ItemEnv) (c : Nat) (st : ItemState) (cfg : PrefixConfig)
    (hnorm : normalizePfx p = p) (hfind : findByPfx st.store p = some cfg)
    (hlt : cfg.last_number < maxN) (hfail : itemOk e = false) :
    processLoop p maxN (e :: rest) c st =
      if c + 1 ≥ 10 then
        ((generateAndProcessSingleId e st p).1, LoopExit.tooManyErrors, 1)
      else
        ((processLoop p maxN rest (c + 1) (generateAndProcessSingleId e st p).1).1,
         (processLoop p maxN rest (c + 1) (generateAndProcessSingleId e st p).1).2.1,
         (processLoop p maxN rest (c + 1) (generateAndProcessSingleId e st p).1).2.2 + 1) := by
  have hfind' : findByPfx st.store (normalizePfx p) = some cfg := by
    rw [hnorm]; exact hfind
  have hbool : (generateAndProcessSingleId e st p).2 = false := by
    rw [generateAndProcess_result]; exact hfail
  rw [processLoop, hfind']
  simp only [hbool, Bool.false_eq_true, if_false, ge_iff_le,
    Nat.not_le.mpr hlt, if_false]

/-- One loop step on a succeeding item below the ceiling: the
consecutive-error counter is reset to zero, whatever it was. -/
theorem processLoop_cons_ok (p : String) (maxN : Nat) (e : ItemEnv)
    (rest : List ItemEnv) (c : Nat) (st : ItemState) (cfg : PrefixConfig)
    (hnorm : normalizePfx p = p) (hfind : findByPfx st.store p = some cfg)
    (hlt : cfg.last_number < maxN) (hok : itemOk e = true) :
    processLoop p maxN (e :: rest) c st =
      ((processLoop p maxN rest 0 (generateAndProcessSingleId e st p).1).1,
       (processLoop p maxN rest 0 (generateAndProcessSingleId e st p).1).2.1,
       (processLoop p maxN rest 0 (generateAndProcessSingleId e st p).1).2.2 + 1) := by
  have hfind' : findByPfx st.store (normalizePfx p) = some cfg := by
    rw [hnorm]; exact hfind
  have hbool : (generateAndProcessSingleId e st p).2 = true := by
    rw [generateAndProcess_result]; exact hok
  rw [processLoop, hfind']
  simp only [hbool, if_true, ge_iff_le, Nat.not_le.mpr hlt, if_false]

/-- A run of consecutive failing items that brings the error counter to ten
makes the loop exit with `tooManyErrors` after exactly those items, leaving
the row pending and below the ceiling. -/
theorem processLoop_failRun (p : String) (maxN : Nat) (hnorm : normalizePfx p = p) :
    ∀ (envs rest : List ItemEnv) (c : Nat) (st : ItemState) (cfg : PrefixConfig),
      (∀ e ∈ envs, itemOk e = false) →
      0 < envs.length → c + envs.length = 10 →
      findByPfx st.store p = some cfg →
      cfg.status = PrefixStatus.pending →
      cfg.last_number + envs.length ≤ maxN →
      ∃ cfgF,
        findByPfx (processLoop p maxN (envs ++ rest) c st).1.store p = some cfgF
        ∧ cfgF.status = PrefixStatus.pending
        ∧ cfgF.last_number ≤ cfg.last_number + envs.length
        ∧ (processLoop p maxN (envs ++ rest) c st).2.1 = LoopExit.tooManyErrors
        ∧ (processLoop p maxN (envs ++ rest) c st).2.2 = envs.length := by
  intro envs
  induction envs with
  | nil =>
    intro rest c st cfg _ h0 _ _ _ _
    exact absurd h0 (by simp)
  | cons e es ih =>
    intro rest c st cfg hfail _ hc hfind hpend hle
    have hfaile : itemOk e = false := hfail e (by simp)
    have hlt : cfg.last_number < maxN := by
      have := hle; simp [List.length_cons] at this; omega
    have hstep := generateAndProcess_store e st p cfg hnorm hfind
    have hcons : (e :: es) ++ rest = e :: (es ++ rest) := rfl
    rw [hcons, processLoop_cons_fail p maxN e (es ++ rest) c st cfg hnorm hfind hlt hfaile]
    -- the row after the failing item
    set st1 := (generateAndProcessSingleId e st p).1 with hst1
    set cfg1 : PrefixConfig :=
      (if e.genOk then
        { cfg with last_number := cfg.last_number + 1, status := PrefixStatus.pending }
      else cfg) with hcfg1
    have hfind1 : findByPfx st1.store p = some cfg1 := hstep
    have hpend1 : cfg1.status = PrefixStatus.pending := by
      rw [hcfg1]; cases e.genOk <;> simp [hpend]
    have hlast1 : cfg1.last_number ≤ cfg.last_number + 1 := by
      rw [hcfg1]; cases e.genOk <;> simp
    by_cases hten : c + 1 ≥ 10
    · rw [if_pos hten]
      have hes : es.length = 0 := by
        simp [List.length_cons] at hc; omega
      refine ⟨cfg1, hfind1, hpend1, ?_, rfl, ?_⟩
      · simp [List.length_cons, hes]; omega
      · simp [List.length_cons, hes]
    · rw [if_neg hten]
      have hes : 0 < es.length := by
        simp [List.length_cons] at hc; omega
      have hc1 : (c + 1) + es.length = 10 := by
        simp [List.length_cons] at hc; omega
      have hle1 : cfg1.last_number + es.length ≤ maxN := by
        simp [List.length_cons] at hle; omega
      obtain ⟨cfgF, hF1, hF2, hF3, hF4, hF5⟩ :=
        ih rest (c + 1) st1 cfg1 (fun x hx => hfail x (by simp [hx])) hes hc1 hfind1 hpend1 hle1
      refine ⟨cfgF, hF1, hF2, ?_, hF4, ?_⟩
      · simp [List.length_cons]; omega
      · simp [List.length_cons, hF5]

/-- After a succeeding item the loop continues with the counter at zero,
so the incoming counter value is irrelevant. -/
theorem processLoop_reset (p : String) (m1 : Nat) (e1 : ItemEnv)
    (rest1 : List ItemEnv) (c c' : Nat) (st1 : ItemState)
    (hok : itemOk e1 = true) :
    processLoop p m1 (e1 :: rest1) c st1 = processLoop p m1 (e1 :: rest1) c' st1 := by
  have hb : (generateAndProcessSingleId e1 st1 p).2 = true := by
    rw [generateAndProcess_result]; exact hok
  cases hfind : findByPfx st1.store (normalizePfx p) with
  | none => simp only [processLoop, hfind]
  | some cfg1 =>
    by_cases hge : cfg1.last_number ≥ m1
    · simp only [processLoop, hfind, if_pos hge]
    · simp only [processLoop, hfind, if_neg hge, hb, if_true]

/-- Unfolding `processPrefixUntilCompletion` around its loop: the final row
is marked completed exactly when its `last_number` reached
`10 ^ digits - 1`, and the exit and item count are those of the loop. -/
theorem processPrefix_unfold (p : String) (envs : List ItemEnv)
    (st : ItemState) (cfg0 f : PrefixConfig)
    (hnorm : normalizePfx p = p)
    (h0 : findByPfx st.store p = some cfg0)
    (hf : findByPfx (processLoop p (10 ^ cfg0.digits - 1) envs 0 st).1.store p = some f) :
    findByPfx (processPrefixUntilCompletion p envs st).1.store p =
      some (if 10 ^ cfg0.digits - 1 ≤ f.last_number
            then { f with status := PrefixStatus.completed } else f)
    ∧ (processPrefixUntilCompletion p envs st).2.1 =
        (processLoop p (10 ^ cfg0.digits - 1) envs 0 st).2.1
    ∧ (processPrefixUntilCompletion p envs st).2.2 =
        (processLoop p (10 ^ cfg0.digits - 1) envs 0 st).2.2 := by
  have h0' : findByPfx st.store (normalizePfx p) = some cfg0 := by
    rw [hnorm]; exact h0
  have hf' : findByPfx (processLoop p (10 ^ cfg0.digits - 1) envs 0 st).1.store
      (normalizePfx p) = some f := by
    rw [hnorm]; exact hf
  by_cases hge : 10 ^ cfg0.digits - 1 ≤ f.last_number
  · simp only [processPrefixUntilCompletion, h0', hf', ge_iff_le, if_pos hge]
    refine ⟨?_, by trivial, by trivial⟩
    exact findByPfx_updateWhere_some _ p _ f (fun r => rfl) hf
  · simp only [processPrefixUntilCompletion, h0', hf', ge_iff_le, if_neg hge]
    exact ⟨hf, by trivial, by trivial⟩

/-! ### Claim theorems -/

/-- C1: one call of the allocator's client-side fallback path creates the
row with `last_number = 1` when no row exists for the prefix, and otherwise
writes back exactly the stored `last_number` plus one — so over any sequence
of calls `last_number` strictly increases by exactly one per call and never
decreases. -/
theorem allocate_increments_by_one
    (s0 s1 : Store) (p : String) (c : PrefixConfig) (n : Nat)
    (d : Option Nat) (hs : Option Bool)
    (h0 : findByPfx s0 p = none) (h1 : findByPfx s1 p = some c) :
    (incrementViaUpdate s0 p d hs).2.last_number = 1
    ∧ lastOf (incrementViaUpdate s0 p d hs).1 p = some 1
    ∧ (incrementViaUpdate s1 p d hs).2.last_number = c.last_number + 1
    ∧ lastOf (incrementViaUpdate s1 p d hs).1 p = some (c.last_number + 1)
    ∧ c.last_number < (incrementViaUpdate s1 p d hs).2.last_number
    ∧ lastOf (allocateSeq s1 p n) p = some (c.last_number + n) := by
  have f0 := incrementViaUpdate_fresh s0 p d hs h0
  have f1 := incrementViaUpdate_existing s1 p d hs c h1
  obtain ⟨cF, hF, hl⟩ := allocateSeq_last p n s1 c h1
  refine ⟨?_, ?_, ?_, ?_, ?_, ?_⟩
  · rw [f0.1]
  · simp [lastOf, f0.2, f0.1]
  · rw [f1.1]
  · simp [lastOf, f1.2, f1.1]
  · rw [f1.1]; simp
  · simp [lastOf, hF, hl]

/-- Witness for C1 at a concrete empty store, a concrete store holding the
prefix at serial 7, and a three-call sequence. -/
theorem allocate_increments_by_one_witness :
    findByPfx [] "AB" = none
    ∧ findByPfx [PrefixConfig.mk "AB" 4 7 false PrefixStatus.pending] "AB" =
        some (PrefixConfig.mk "AB" 4 7 false PrefixStatus.pending)
    ∧ ((incrementViaUpdate [] "AB" none none).2.last_number = 1
       ∧ lastOf (incrementViaUpdate [] "AB" none none).1 "AB" = some 1
       ∧ (incrementViaUpdate [PrefixConfig.mk "AB" 4 7 false PrefixStatus.pending]
            "AB" none none).2.last_number = 7 + 1
       ∧ lastOf (incrementViaUpdate [PrefixConfig.mk "AB" 4 7 false PrefixStatus.pending]
            "AB" none none).1 "AB" = some (7 + 1)
       ∧ 7 < (incrementViaUpdate [PrefixConfig.mk "AB" 4 7 false PrefixStatus.pending]
            "AB" none none).2.last_number
       ∧ lastOf (allocateSeq [PrefixConfig.mk "AB" 4 7 false PrefixStatus.pending]
            "AB" 3) "AB" = some (7 + 3)) :=
  ⟨rfl, rfl,
   allocate_increments_by_one [] [PrefixConfig.mk "AB" 4 7 false PrefixStatus.pending]
     "AB" (PrefixConfig.mk "AB" 4 7 false PrefixStatus.pending) 3 none none rfl rfl⟩

/-- C10: on an existing row the fallback path unconditionally writes
`status = "pending"` as part of the increment, whatever the previous status
was — in particular a `"completed"` prefix is silently reverted to
`"pending"`. -/
theorem increment_overwrites_status (s : Store) (p : String) (d : Option Nat)
    (hs : Option Bool) (c : PrefixConfig) (h : findByPfx s p = some c) :
    (incrementViaUpdate s p d hs).2.status = PrefixStatus.pending
    ∧ statusOf (incrementViaUpdate s p d hs).1 p = some PrefixStatus.pending
    ∧ (incrementViaUpdate s p d hs).2.last_number = c.last_number + 1 := by
  have f := incrementViaUpdate_existing s p d hs c h
  refine ⟨?_, ?_, ?_⟩
  · rw [f.1]
  · simp [statusOf, f.2, f.1]
  · rw [f.1]

/-- Witness for C10 at a row currently marked completed. -/
theorem increment_overwrites_status_witness :
    findByPfx [PrefixConfig.mk "AB" 4 9999 false PrefixStatus.completed] "AB" =
      some (PrefixConfig.mk "AB" 4 9999 false PrefixStatus.completed)
    ∧ ((incrementViaUpdate [PrefixConfig.mk "AB" 4 9999 false PrefixStatus.completed]
          "AB" none none).2.status = PrefixStatus.pending
       ∧ statusOf (incrementViaUpdate [PrefixConfig.mk "AB" 4 9999 false PrefixStatus.completed]
          "AB" none none).1 "AB" = some PrefixStatus.pending
       ∧ (incrementViaUpdate [PrefixConfig.mk "AB" 4 9999 false PrefixStatus.completed]
          "AB" none none).2.last_number = 9999 + 1) :=
  ⟨rfl,
   increment_overwrites_status [PrefixConfig.mk "AB" 4 9999 false PrefixStatus.completed]
     "AB" none none (PrefixConfig.mk "AB" 4 9999 false PrefixStatus.completed) rfl⟩

/-- C3: the next-pick returns the first pending row's prefix whenever one
exists (store untouched); only with zero pending rows does it claim the
first not-started row, flipping its status to pending, and it returns
nothing when neither status is present. -/
theorem next_pick_priority
    (s1 s2 s3 : Store) (c1 c2 : PrefixConfig)
    (h1 : s1.find? (fun c => c.status == PrefixStatus.pending) = some c1)
    (h2 : s2.find? (fun c => c.status == PrefixStatus.pending) = none)
    (h2b : s2.find? (fun c => c.status == PrefixStatus.not_started) = some c2)
    (h3 : s3.find? (fun c => c.status == PrefixStatus.pending) = none)
    (h3b : s3.find? (fun c => c.status == PrefixStatus.not_started) = none) :
    getNextPrefixToProcess s1 = (s1, some c1.pfx)
    ∧ (getNextPrefixToProcess s2).2 = some c2.pfx
    ∧ statusOf (getNextPrefixToProcess s2).1 c2.pfx = some PrefixStatus.pending
    ∧ getNextPrefixToProcess s3 = (s3, none) := by
  have hfil2 : s2.filter (fun c => c.status == PrefixStatus.pending) = [] :=
    List.filter_eq_nil_iff.mpr (List.find?_eq_none.mp h2)
  have hfil3 : s3.filter (fun c => c.status == PrefixStatus.pending) = [] :=
    List.filter_eq_nil_iff.mpr (List.find?_eq_none.mp h3)
  have hmem : c2 ∈ s2 := List.mem_of_find?_eq_some h2b
  have hsome : (s2.find? (fun c => c.pfx == c2.pfx)).isSome :=
    List.find?_isSome.mpr ⟨c2, hmem, by simp⟩
  obtain ⟨r0, hr0⟩ := Option.isSome_iff_exists.mp hsome
  refine ⟨?_, ?_, ?_, ?_⟩
  · simp only [getNextPrefixToProcess, h1]
  · simp only [getNextPrefixToProcess, h2, hfil2, List.length_nil, if_true, h2b]
  · simp only [getNextPrefixToProcess, h2, hfil2, List.length_nil, if_true, h2b]
    exact statusOf_markPrefixStatus s2 c2.pfx PrefixStatus.pending r0 hr0
  · simp only [getNextPrefixToProcess, h3, hfil3, List.length_nil, if_true, h3b]

/-- Witness for C3: a store with one pending row among two not-started
rows, a store with only a not-started row to claim, and a store with
neither. -/
theorem next_pick_priority_witness :
    ([PrefixConfig.mk "A" 4 0 false PrefixStatus.not_started,
      PrefixConfig.mk "B" 4 0 false PrefixStatus.pending,
      PrefixConfig.mk "C" 4 0 false PrefixStatus.not_started].find?
        (fun c => c.status == PrefixStatus.pending) =
      some (PrefixConfig.mk "B" 4 0 false PrefixStatus.pending))
    ∧ ([PrefixConfig.mk "A" 4 0 false PrefixStatus.not_started,
        PrefixConfig.mk "D" 4 5 true PrefixStatus.completed].find?
          (fun c => c.status == PrefixStatus.pending) = none)
    ∧ ([PrefixConfig.mk "A" 4 0 false PrefixStatus.not_started,
        PrefixConfig.mk "D" 4 5 true PrefixStatus.completed].find?
          (fun c => c.status == PrefixStatus.not_started) =
        some (PrefixConfig.mk "A" 4 0 false PrefixStatus.not_started))
    ∧ ([PrefixConfig.mk "D" 4 5 true PrefixStatus.completed].find?
          (fun c => c.status == PrefixStatus.pending) = none)
    ∧ ([PrefixConfig.mk "D" 4 5 true PrefixStatus.completed].find?
          (fun c => c.status == PrefixStatus.not_started) = none)
    ∧ (getNextPrefixToProcess
        [PrefixConfig.mk "A" 4 0 false PrefixStatus.not_started,
         PrefixConfig.mk "B" 4 0 false PrefixStatus.pending,
         PrefixConfig.mk "C" 4 0 false PrefixStatus.not_started] =
        ([PrefixConfig.mk "A" 4 0 false PrefixStatus.not_started,
          PrefixConfig.mk "B" 4 0 false PrefixStatus.pending,
          PrefixConfig.mk "C" 4 0 false PrefixStatus.not_started],
         some (PrefixConfig.mk "B" 4 0 false PrefixStatus.pending).pfx)
       ∧ (getNextPrefixToProcess
           [PrefixConfig.mk "A" 4 0 false PrefixStatus.not_started,
            PrefixConfig.mk "D" 4 5 true PrefixStatus.completed]).2 =
          some (PrefixConfig.mk "A" 4 0 false PrefixStatus.not_started).pfx
       ∧ statusOf (getNextPrefixToProcess
           [PrefixConfig.mk "A" 4 0 false PrefixStatus.not_started,
            PrefixConfig.mk "D" 4 5 true PrefixStatus.completed]).1
          (PrefixConfig.mk "A" 4 0 false PrefixStatus.not_started).pfx =
          some PrefixStatus.pending
       ∧ getNextPrefixToProcess [PrefixConfig.mk "D" 4 5 true PrefixStatus.completed] =
          ([PrefixConfig.mk "D" 4 5 true PrefixStatus.completed], none)) :=
  ⟨rfl, rfl, rfl, rfl, rfl,
   next_pick_priority
     [PrefixConfig.mk "A" 4 0 false PrefixStatus.not_started,
      PrefixConfig.mk "B" 4 0 false PrefixStatus.pending,
      PrefixConfig.mk "C" 4 0 false PrefixStatus.not_started]
     [PrefixConfig.mk "A" 4 0 false PrefixStatus.not_started,
      PrefixConfig.mk "D" 4 5 true PrefixStatus.completed]
     [PrefixConfig.mk "D" 4 5 true PrefixStatus.completed]
     (PrefixConfig.mk "B" 4 0 false PrefixStatus.pending)
     (PrefixConfig.mk "A" 4 0 false PrefixStatus.not_started)
     rfl rfl rfl rfl rfl⟩

/-- C2: the per-prefix run marks the row completed exactly when the final
`last_number` has reached `10 ^ digits - 1` (with `digits = 4`: exactly at
9999, never below), and an interrupted run below the ceiling leaves the
status pending, not completed. -/
theorem completion_iff_ceiling
    (p : String) (st : ItemState) (envs : List ItemEnv) (cfg0 f : PrefixConfig)
    (hnorm : normalizePfx p = p)
    (h0 : findByPfx st.store p = some cfg0)
    (hf : findByPfx (processLoop p (10 ^ cfg0.digits - 1) envs 0 st).1.store p = some f) :
    findByPfx (processPrefixUntilCompletion p envs st).1.store p =
      some (if 10 ^ cfg0.digits - 1 ≤ f.last_number
            then { f with status := PrefixStatus.completed } else f)
    ∧ (cfg0.digits = 4 →
        findByPfx (processPrefixUntilCompletion p envs st).1.store p =
          some (if 9999 ≤ f.last_number
                then { f with status := PrefixStatus.completed } else f))
    ∧ (envs = [] → f = cfg0)
    ∧ (envs = [] → cfg0.last_number < 10 ^ cfg0.digits - 1 →
        cfg0.status = PrefixStatus.pending →
        statusOf (processPrefixUntilCompletion p envs st).1.store p =
            some PrefixStatus.pending
        ∧ (processPrefixUntilCompletion p envs st).2.1 = LoopExit.stopped) := by
  have main := processPrefix_unfold p envs st cfg0 f hnorm h0 hf
  have hnil : envs = [] → f = cfg0 := by
    intro he
    subst he
    have : processLoop p (10 ^ cfg0.digits - 1) [] 0 st = (st, LoopExit.stopped, 0) := rfl
    rw [this] at hf
    exact (Option.some.inj (h0.symm.trans hf)).symm
  refine ⟨main.1, ?_, hnil, ?_⟩
  · intro h4
    have h9999 : 10 ^ cfg0.digits - 1 = 9999 := by rw [h4]; norm_num
    rw [← h9999]
    exact main.1
  · intro he hlt hpend
    have hfc : f = cfg0 := hnil he
    constructor
    · rw [statusOf, main.1, hfc, if_neg (by omega)]
      simp [hpend]
    · rw [main.2.1, he]
      rfl

/-- Witness for C2: a one-row store with `digits = 4`, once with an empty
trace (interrupted at once, left pending) — the hypotheses are discharged at
that input. -/
theorem completion_iff_ceiling_witness :
    (normalizePfx "AB" = "AB")
    ∧ findByPfx [PrefixConfig.mk "AB" 4 7 false PrefixStatus.pending] "AB" =
        some (PrefixConfig.mk "AB" 4 7 false PrefixStatus.pending)
    ∧ findByPfx (processLoop "AB"
        (10 ^ (PrefixConfig.mk "AB" 4 7 false PrefixStatus.pending).digits - 1) [] 0
        (ItemState.mk [PrefixConfig.mk "AB" 4 7 false PrefixStatus.pending]
          (EngineStats.mk 0 0 0 none) [])).1.store "AB" =
        some (PrefixConfig.mk "AB" 4 7 false PrefixStatus.pending)
    ∧ (findByPfx (processPrefixUntilCompletion "AB" []
        (ItemState.mk [PrefixConfig.mk "AB" 4 7 false PrefixStatus.pending]
          (EngineStats.mk 0 0 0 none) [])).1.store "AB" =
        some (if 10 ^ (PrefixConfig.mk "AB" 4 7 false PrefixStatus.pending).digits - 1 ≤
                (PrefixConfig.mk "AB" 4 7 false PrefixStatus.pending).last_number
              then { PrefixConfig.mk "AB" 4 7 false PrefixStatus.pending with
                       status := PrefixStatus.completed }
              else PrefixConfig.mk "AB" 4 7 false PrefixStatus.pending)
      ∧ ((PrefixConfig.mk "AB" 4 7 false PrefixStatus.pending).digits = 4 →
          findByPfx (processPrefixUntilCompletion "AB" []
            (ItemState.mk [PrefixConfig.mk "AB" 4 7 false PrefixStatus.pending]
              (EngineStats.mk 0 0 0 none) [])).1.store "AB" =
            some (if 9999 ≤ (PrefixConfig.mk "AB" 4 7 false PrefixStatus.pending).last_number
                  then { PrefixConfig.mk "AB" 4 7 false PrefixStatus.pending with
                           status := PrefixStatus.completed }
                  else PrefixConfig.mk "AB" 4 7 false PrefixStatus.pending))
      ∧ (([] : List ItemEnv) = [] →
          PrefixConfig.mk "AB" 4 7 false PrefixStatus.pending =
            PrefixConfig.mk "AB" 4 7 false PrefixStatus.pending)
      ∧ (([] : List ItemEnv) = [] →
          (PrefixConfig.mk "AB" 4 7 false PrefixStatus.pending).last_number <
            10 ^ (PrefixConfig.mk "AB" 4 7 false PrefixStatus.pending).digits - 1 →
          (PrefixConfig.mk "AB" 4 7 false PrefixStatus.pending).status =
            PrefixStatus.pending →
          statusOf (processPrefixUntilCompletion "AB" []
            (ItemState.mk [PrefixConfig.mk "AB" 4 7 false PrefixStatus.pending]
              (EngineStats.mk 0 0 0 none) [])).1.store "AB" =
              some PrefixStatus.pending
          ∧ (processPrefixUntilCompletion "AB" []
              (ItemState.mk [PrefixConfig.mk "AB" 4 7 false PrefixStatus.pending]
                (EngineStats.mk 0 0 0 none) [])).2.1 = LoopExit.stopped)) :=
  ⟨rfl, rfl, rfl,
   completion_iff_ceiling "AB"
     (ItemState.mk [PrefixConfig.mk "AB" 4 7 false PrefixStatus.pending]
       (EngineStats.mk 0 0 0 none) []) []
     (PrefixConfig.mk "AB" 4 7 false PrefixStatus.pending)
     (PrefixConfig.mk "AB" 4 7 false PrefixStatus.pending)
     rfl rfl rfl⟩

/-- C7: ten consecutive failing items make the run stop with
`tooManyErrors` after exactly those ten items — no eleventh item is
attempted whatever else the trace holds — leaving the prefix pending (not
completed); and a succeeding item resets the consecutive-error counter, so
the counter value coming into it is irrelevant. -/
theorem consecutive_error_circuit_breaker
    (p : String) (st st1 : ItemState) (envs rest rest1 : List ItemEnv)
    (cfg : PrefixConfig) (e1 : ItemEnv) (c c' m1 : Nat)
    (hnorm : normalizePfx p = p)
    (hlen : envs.length = 10)
    (hfail : ∀ e ∈ envs, itemOk e = false)
    (hfind : findByPfx st.store p = some cfg)
    (hpend : cfg.status = PrefixStatus.pending)
    (hroom : cfg.last_number + 10 < 10 ^ cfg.digits - 1)
    (hok : itemOk e1 = true) :
    (processPrefixUntilCompletion p (envs ++ rest) st).2.1 = LoopExit.tooManyErrors
    ∧ (processPrefixUntilCompletion p (envs ++ rest) st).2.2 = 10
    ∧ statusOf (processPrefixUntilCompletion p (envs ++ rest) st).1.store p =
        some PrefixStatus.pending
    ∧ processLoop p m1 (e1 :: rest1) c st1 = processLoop p m1 (e1 :: rest1) c' st1 := by
  obtain ⟨cfgF, hF1, hF2, hF3, hF4, hF5⟩ :=
    processLoop_failRun p (10 ^ cfg.digits - 1) hnorm envs rest 0 st cfg hfail
      (by omega) (by omega) hfind hpend (by omega)
  have main := processPrefix_unfold p (envs ++ rest) st cfg cfgF hnorm hfind hF1
  have hlow : ¬ (10 ^ cfg.digits - 1 ≤ cfgF.last_number) := by omega
  refine ⟨?_, ?_, ?_, processLoop_reset p m1 e1 rest1 c c' st1 hok⟩
  · rw [main.2.1, hF4]
  · rw [main.2.2, hF5, hlen]
  · rw [statusOf, main.1, if_neg hlow]
    simp [hF2]

/-- Witness for C7: a fresh four-digit prefix, ten failing items followed by
further trace entries that are never attempted, and a succeeding item fed
two different counter values. -/
theorem consecutive_error_circuit_breaker_witness :
    (normalizePfx "AB" = "AB")
    ∧ (List.replicate 10 (ItemEnv.mk false false false none false)).length = 10
    ∧ (∀ e ∈ List.replicate 10 (ItemEnv.mk false false false none false),
        itemOk e = false)
    ∧ findByPfx [PrefixConfig.mk "AB" 4 0 false PrefixStatus.pending] "AB" =
        some (PrefixConfig.mk "AB" 4 0 false PrefixStatus.pending)
    ∧ (PrefixConfig.mk "AB" 4 0 false PrefixStatus.pending).status = PrefixStatus.pending
    ∧ (PrefixConfig.mk "AB" 4 0 false PrefixStatus.pending).last_number + 10 <
        10 ^ (PrefixConfig.mk "AB" 4 0 false PrefixStatus.pending).digits - 1
    ∧ itemOk (ItemEnv.mk true false false none false) = true
    ∧ ((processPrefixUntilCompletion "AB"
          (List.replicate 10 (ItemEnv.mk false false false none false) ++
            [ItemEnv.mk true false true (some "9") false])
          (ItemState.mk [PrefixConfig.mk "AB" 4 0 false PrefixStatus.pending]
            (EngineStats.mk 0 0 0 none) [])).2.1 = LoopExit.tooManyErrors
       ∧ (processPrefixUntilCompletion "AB"
            (List.replicate 10 (ItemEnv.mk false false false none false) ++
              [ItemEnv.mk true false true (some "9") false])
            (ItemState.mk [PrefixConfig.mk "AB" 4 0 false PrefixStatus.pending]
              (EngineStats.mk 0 0 0 none) [])).2.2 = 10
       ∧ statusOf (processPrefixUntilCompletion "AB"
            (List.replicate 10 (ItemEnv.mk false false false none false) ++
              [ItemEnv.mk true false true (some "9") false])
            (ItemState.mk [PrefixConfig.mk "AB" 4 0 false PrefixStatus.pending]
              (EngineStats.mk 0 0 0 none) [])).1.store "AB" =
            some PrefixStatus.pending
       ∧ processLoop "AB" 9999 [ItemEnv.mk true false false none false] 5
            (ItemState.mk [PrefixConfig.mk "AB" 4 3 false PrefixStatus.pending]
              (EngineStats.mk 0 0 0 none) []) =
          processLoop "AB" 9999 [ItemEnv.mk true false false none false] 0
            (ItemState.mk [PrefixConfig.mk "AB" 4 3 false PrefixStatus.pending]
              (EngineStats.mk 0 0 0 none) [])) :=
  ⟨rfl, rfl, by decide, rfl, rfl, by decide, rfl,
   consecutive_error_circuit_breaker "AB"
     (ItemState.mk [PrefixConfig.mk "AB" 4 0 false PrefixStatus.pending]
       (EngineStats.mk 0 0 0 none) [])
     (ItemState.mk [PrefixConfig.mk "AB" 4 3 false PrefixStatus.pending]
       (EngineStats.mk 0 0 0 none) [])
     (List.replicate 10 (ItemEnv.mk false false false none false))
     [ItemEnv.mk true false true (some "9") false] []
     (PrefixConfig.mk "AB" 4 0 false PrefixStatus.pending)
     (ItemEnv.mk true false false none false) 5 0 9999
     rfl rfl (by decide) rfl rfl (by decide) rfl⟩

/-- C4 counterexample: between two observations with the total count
unchanged and the pending count strictly decreased (2 to 1), the change
monitor does report a change and so triggers a restart — the detector never
consults the scheduler's running state at all, so this happens also while
the scheduler is running, where the claim says a restart never occurs. -/
theorem restart_on_decrease_cex :
    (detectChanges 30 (MonitorState.mk 2 2 (some 100))
      (Observation.mk 2 1 none 100)).1 = true := by decide

/-- C4 amended: with the previous total nonzero, no recent-update signal
and the total not increased, the monitor reports a change exactly when the
pending count changed — in either direction, a decrease included,
irrespective of the scheduler's running state (which is not an input of the
detector); in particular any pending-count change, such as a rise from 0 to
1, triggers a restart. -/
theorem detect_changes_pending_delta (ci : Nat) (m : MonitorState)
    (obs : Observation) (h0 : m.last_prefix_count ≠ 0) :
    ((obs.total_count ≤ m.last_prefix_count → recentUpdate ci m obs = false →
        ((detectChanges ci m obs).1 = true ↔
          obs.pending_count ≠ m.last_pending_count)))
    ∧ (obs.pending_count ≠ m.last_pending_count →
        (detectChanges ci m obs).1 = true) := by
  constructor
  · intro hle hru
    simp [detectChanges, h0, hru, Nat.not_lt.mpr hle]
  · intro hne
    simp [detectChanges, h0, hne]

/-- Witness for C4's amended statement: previous state saw 2 rows with none
pending, the new observation has 1 pending (a 0-to-1 rise) and no recent
update; the change is reported. -/
theorem detect_changes_pending_delta_witness :
    ((MonitorState.mk 2 0 (some 100)).last_prefix_count ≠ 0)
    ∧ ((((Observation.mk 2 1 none 130).total_count ≤
          (MonitorState.mk 2 0 (some 100)).last_prefix_count →
        recentUpdate 30 (MonitorState.mk 2 0 (some 100)) (Observation.mk 2 1 none 130) = false →
        ((detectChanges 30 (MonitorState.mk 2 0 (some 100))
            (Observation.mk 2 1 none 130)).1 = true ↔
          (Observation.mk 2 1 none 130).pending_count ≠
            (MonitorState.mk 2 0 (some 100)).last_pending_count)))
       ∧ ((Observation.mk 2 1 none 130).pending_count ≠
            (MonitorState.mk 2 0 (some 100)).last_pending_count →
          (detectChanges 30 (MonitorState.mk 2 0 (some 100))
            (Observation.mk 2 1 none 130)).1 = true)) :=
  ⟨by decide,
   detect_changes_pending_delta 30 (MonitorState.mk 2 0 (some 100))
     (Observation.mk 2 1 none 130) (by decide)⟩

/-- C5 counterexample: with one identifier generated, no mobile number
found and no errors, `get_stats` reports a success rate of 100, not the
0 the specification's found-over-generated formula yields. -/
theorem success_rate_cex :
    (getStats (EngineStats.mk 1 0 0 (some 0)) 5).success_rate ≠
      some (specSuccessRate (EngineStats.mk 1 0 0 (some 0))) := by
  simp only [getStats, specSuccessRate]
  norm_num

/-- C5 amended: once the engine has been started, the snapshot's
`success_rate` is `(total_generated - errors) / max(total_generated, 1) * 100`
— error-free passes over generated identifiers, not found-over-generated —
and `runtime_seconds` is the elapsed time since start. -/
theorem get_stats_formula (s : EngineStats) (now t : Int)
    (h : s.start_time = some t) :
    (getStats s now).success_rate =
      some (((s.total_generated : ℚ) - (s.errors : ℚ)) /
        (max (s.total_generated : ℚ) 1) * 100)
    ∧ (getStats s now).runtime_seconds = some (now - t) := by
  simp [getStats, h]

/-- Witness for C5's amended statement on a started engine with 2 generated,
1 found, 1 error at clock 10. -/
theorem get_stats_formula_witness :
    ((EngineStats.mk 2 1 1 (some 3)).start_time = some 3)
    ∧ ((getStats (EngineStats.mk 2 1 1 (some 3)) 10).success_rate =
        some ((((EngineStats.mk 2 1 1 (some 3)).total_generated : ℚ) -
          ((EngineStats.mk 2 1 1 (some 3)).errors : ℚ)) /
          (max ((EngineStats.mk 2 1 1 (some 3)).total_generated : ℚ) 1) * 100)
       ∧ (getStats (EngineStats.mk 2 1 1 (some 3)) 10).runtime_seconds =
          some (10 - 3)) :=
  ⟨rfl, get_stats_formula (EngineStats.mk 2 1 1 (some 3)) 10 3 rfl⟩

/-- C6 counterexample: a fully successful per-item pass appends no row to
the serial log — its length stays 0, not 1 as the claim's
one-entry-per-attempt property requires. -/
theorem single_pass_no_serial_log_cex :
    ((generateAndProcessSingleId (ItemEnv.mk true false true (some "9") false)
        (ItemState.mk [PrefixConfig.mk "AB" 4 0 false PrefixStatus.pending]
          (EngineStats.mk 0 0 0 none) []) "AB").1).slog.length ≠
      ([] : SerialLog).length + 1 := by
  rw [generateAndProcess_slog]
  decide

/-- C6 amended: the per-item pass of the sequential scheduler appends no
`SerialLogEntry` at all, in either outcome — the `log_serial_event`
facility, which does append exactly one entry per call, is never invoked
from this path. -/
theorem single_pass_serial_log (env : ItemEnv) (st : ItemState)
    (p q gid : String) (mob : Option String) (stat : String)
    (md : Option (List (String × String))) :
    ((generateAndProcessSingleId env st p).1).slog = st.slog
    ∧ ((logSerialEvent st.slog q gid mob stat md).1).length = st.slog.length + 1 :=
  ⟨generateAndProcess_slog env st p, by simp [logSerialEvent]⟩

/-- C8: stopping with an active prefix clears the running flag and rewrites
only that prefix's `status` field to pending — every row keeps its key,
`last_number`, `digits` and `has_space`, rows of other prefixes are
untouched, and no status is ever set to completed. -/
theorem stop_frame (e : Engine) (p : String) (i : Nat)
    (h : e.current_pfx = some p)
    (hi : i < e.store.length) (hi2 : i < (stop e).store.length) :
    (stop e).running = false
    ∧ (stop e).store.length = e.store.length
    ∧ ((stop e).store.get ⟨i, hi2⟩).pfx = (e.store.get ⟨i, hi⟩).pfx
    ∧ ((stop e).store.get ⟨i, hi2⟩).last_number = (e.store.get ⟨i, hi⟩).last_number
    ∧ ((stop e).store.get ⟨i, hi2⟩).digits = (e.store.get ⟨i, hi⟩).digits
    ∧ ((stop e).store.get ⟨i, hi2⟩).has_space = (e.store.get ⟨i, hi⟩).has_space
    ∧ ((e.store.get ⟨i, hi⟩).pfx = p →
        ((stop e).store.get ⟨i, hi2⟩).status = PrefixStatus.pending)
    ∧ ((e.store.get ⟨i, hi⟩).pfx ≠ p →
        (stop e).store.get ⟨i, hi2⟩ = e.store.get ⟨i, hi⟩)
    ∧ (((stop e).store.get ⟨i, hi2⟩).status = PrefixStatus.pending
       ∨ ((stop e).store.get ⟨i, hi2⟩).status = (e.store.get ⟨i, hi⟩).status) := by
  obtain ⟨run, cur, store⟩ := e
  simp only [Engine.current_pfx] at h
  subst h
  have hget : (stop (Engine.mk run (some p) store)).store.get ⟨i, hi2⟩ =
      (if (store.get ⟨i, hi⟩).pfx == p
       then { store.get ⟨i, hi⟩ with status := PrefixStatus.pending }
       else store.get ⟨i, hi⟩) := by
    show (updateWhere store p (fun r => { r with status := PrefixStatus.pending })).get
        ⟨i, hi2⟩ = _
    simp [updateWhere, List.get_eq_getElem, List.getElem_map]
  refine ⟨rfl, ?_, ?_, ?_, ?_, ?_, ?_, ?_, ?_⟩
  · show (updateWhere store p (fun r => { r with status := PrefixStatus.pending })).length =
      store.length
    simp [updateWhere]
  · rw [hget]; split <;> rfl
  · rw [hget]; split <;> rfl
  · rw [hget]; split <;> rfl
  · rw [hget]; split <;> rfl
  · intro hp
    have hb : ((store.get ⟨i, hi⟩).pfx == p) = true := by
      rw [beq_iff_eq]; exact hp
    rw [hget, if_pos hb]
  · intro hp
    have hb : ¬ (((store.get ⟨i, hi⟩).pfx == p) = true) := by
      rw [beq_iff_eq]; exact hp
    rw [hget, if_neg hb]
  · rw [hget]
    split
    · exact Or.inl rfl
    · exact Or.inr rfl

/-- Witness for C8: the sample engine stopped while `"AB"` is active,
inspected at row 0 (the active prefix's row). -/
theorem stop_frame_witness :
    (sampleEngine.current_pfx = some "AB")
    ∧ (0 < sampleEngine.store.length)
    ∧ (0 < (stop sampleEngine).store.length)
    ∧ ((stop sampleEngine).running = false
       ∧ (stop sampleEngine).store.length = sampleEngine.store.length
       ∧ (((stop sampleEngine).store.get ⟨0, by decide⟩).pfx =
           (sampleEngine.store.get ⟨0, by decide⟩).pfx)
       ∧ (((stop sampleEngine).store.get ⟨0, by decide⟩).last_number =
           (sampleEngine.store.get ⟨0, by decide⟩).last_number)
       ∧ (((stop sampleEngine).store.get ⟨0, by decide⟩).digits =
           (sampleEngine.store.get ⟨0, by decide⟩).digits)
       ∧ (((stop sampleEngine).store.get ⟨0, by decide⟩).has_space =
           (sampleEngine.store.get ⟨0, by decide⟩).has_space)
       ∧ ((sampleEngine.store.get ⟨0, by decide⟩).pfx = "AB" →
           ((stop sampleEngine).store.get ⟨0, by decide⟩).status = PrefixStatus.pending)
       ∧ ((sampleEngine.store.get ⟨0, by decide⟩).pfx ≠ "AB" →
           (stop sampleEngine).store.get ⟨0, by decide⟩ =
             sampleEngine.store.get ⟨0, by decide⟩)
       ∧ (((stop sampleEngine).store.get ⟨0, by decide⟩).status = PrefixStatus.pending
          ∨ ((stop sampleEngine).store.get ⟨0, by decide⟩).status =
              (sampleEngine.store.get ⟨0, by decide⟩).status)) :=
  ⟨rfl, by decide, by decide,
   stop_frame sampleEngine "AB" 0 rfl (by decide) (by decide)⟩

/-- C9: reconciliation rewrites only legacy-status rows (to pending),
leaves not-started, pending and completed rows untouched, is idempotent on
both the store and the returned summary (a second call with no intervening
change returns an identical summary), and does not start the scheduler
when it is already running. -/
theorem reconcile_idempotent (s : RawStore) (i : Nat)
    (hi : i < s.length) (hi2 : i < (reconcileStore s).length) :
    (reconcileStore s).length = s.length
    ∧ ((s.get ⟨i, hi⟩).status = RawStatus.not_started →
        (reconcileStore s).get ⟨i, hi2⟩ = s.get ⟨i, hi⟩)
    ∧ ((s.get ⟨i, hi⟩).status = RawStatus.completed →
        (reconcileStore s).get ⟨i, hi2⟩ = s.get ⟨i, hi⟩)
    ∧ ((s.get ⟨i, hi⟩).status = RawStatus.pending →
        (reconcileStore s).get ⟨i, hi2⟩ = s.get ⟨i, hi⟩)
    ∧ (isLegacy ((s.get ⟨i, hi⟩).status) = true →
        (reconcileStore s).get ⟨i, hi2⟩ =
          { s.get ⟨i, hi⟩ with status := RawStatus.pending })
    ∧ reconcileSummary (reconcileStore s) = reconcileSummary s
    ∧ reconcileStore (reconcileStore s) = reconcileStore s
    ∧ (checkAndResume s true).2.2 = false := by
  have hnr : ∀ r : RawRecord,
      normalizeRecord (normalizeRecord r) = normalizeRecord r := by
    intro r
    cases r with
    | mk a b c d st => cases st <;> rfl
  have hidem : reconcileStore (reconcileStore s) = reconcileStore s := by
    simp only [reconcileStore, List.map_map]
    exact List.map_congr_left (fun r _ => hnr r)
  have hget : (reconcileStore s).get ⟨i, hi2⟩ = normalizeRecord (s.get ⟨i, hi⟩) := by
    simp [reconcileStore, List.get_eq_getElem, List.getElem_map]
  refine ⟨by simp [reconcileStore], ?_, ?_, ?_, ?_, ?_, hidem, ?_⟩
  · intro hs; rw [hget, normalizeRecord, if_neg (by rw [hs]; exact Bool.false_ne_true)]
  · intro hs; rw [hget, normalizeRecord, if_neg (by rw [hs]; exact Bool.false_ne_true)]
  · intro hs; rw [hget, normalizeRecord, if_neg (by rw [hs]; exact Bool.false_ne_true)]
  · intro hs; rw [hget, normalizeRecord, if_pos hs]
  · simp only [reconcileSummary, hidem]
  · simp [checkAndResume]

/-- Witness for C9 on the sample raw store, inspected at its legacy
(`running`) row. -/
theorem reconcile_idempotent_witness :
    (0 < sampleRawStore.length)
    ∧ (0 < (reconcileStore sampleRawStore).length)
    ∧ ((reconcileStore sampleRawStore).length = sampleRawStore.length
       ∧ ((sampleRawStore.get ⟨0, by decide⟩).status = RawStatus.not_started →
           (reconcileStore sampleRawStore).get ⟨0, by decide⟩ =
             sampleRawStore.get ⟨0, by decide⟩)
       ∧ ((sampleRawStore.get ⟨0, by decide⟩).status = RawStatus.completed →
           (reconcileStore sampleRawStore).get ⟨0, by decide⟩ =
             sampleRawStore.get ⟨0, by decide⟩)
       ∧ ((sampleRawStore.get ⟨0, by decide⟩).status = RawStatus.pending →
           (reconcileStore sampleRawStore).get ⟨0, by decide⟩ =
             sampleRawStore.get ⟨0, by decide⟩)
       ∧ (isLegacy ((sampleRawStore.get ⟨0, by decide⟩).status) = true →
           (reconcileStore sampleRawStore).get ⟨0, by decide⟩ =
             { sampleRawStore.get ⟨0, by decide⟩ with status := RawStatus.pending })
       ∧ reconcileSummary (reconcileStore sampleRawStore) =
           reconcileSummary sampleRawStore
       ∧ reconcileStore (reconcileStore sampleRawStore) = reconcileStore sampleRawStore
       ∧ (checkAndResume sampleRawStore true).2.2 = false) :=
  ⟨by decide, by decide,
   reconcile_idempotent sampleRawStore 0 (by decide) (by decide)⟩

end Maha
